import Mathlib

/-!
Verification of the cosmological distance / flux-scaling engine and the
sexagesimal coordinate codec of the SOS (SKA Observation Simulator)
repository, shallowly embedded from the Python sources
`sos/constants.py`, `sos/core/image_maker.py`, `sos/utils/coordinates.py`
and `sos/utils/validators.py`.

Numbers are modelled by exact rationals (`ℚ`): every Python float literal
appearing in the sources is an exact decimal, and all tolerances involved
in the properties below (`0.01/3600`, `1e-6` relative) are many orders of
magnitude above double-precision rounding error, so exact rational
arithmetic is a faithful idealisation of the float computations.
Python strings are modelled as `List Char`; functions that can raise
return `Except String _`.
-/

/-! ## Constants (`sos/constants.py`) -/

/-- Speed of light in km/s: `SPEED_OF_LIGHT_KM_S = 299792.458`. -/
def SPEED_OF_LIGHT_KM_S : ℚ := 299792458 / 1000

/-- Hubble constant default: `HUBBLE_CONSTANT = 67.8`. -/
def HUBBLE_CONSTANT : ℚ := 678 / 10

/-- Matter density default: `MATTER_DENSITY_PARAMETER = 0.308`. -/
def MATTER_DENSITY_PARAMETER : ℚ := 308 / 1000

/-- Redshift lower bound: `MIN_REDSHIFT = 0.0`. -/
def MIN_REDSHIFT : ℚ := 0

/-- Redshift upper bound: `MAX_REDSHIFT = 10.0`. -/
def MAX_REDSHIFT : ℚ := 10

/-- Flux density lower bound: `MIN_FLUX_DENSITY_JY = 0.0`. -/
def MIN_FLUX_DENSITY_JY : ℚ := 0

/-- Flux density upper bound: `MAX_FLUX_DENSITY_JY = 1e6`. -/
def MAX_FLUX_DENSITY_JY : ℚ := 1000000

/-! ## Cosmology calculator (`sos/core/image_maker.py`)

`CosmologyCalculator.__init__` stores exactly two attributes, `self.h0`
and `self.omega_m`.  The method `angular_diameter_distance` special-cases
`redshift == 0` to `0.0`; its general branch first binds the local
variable `omega_l = 1.0 - self.omega_m` and then evaluates the numerator
`SPEED_OF_LIGHT_KM_S * 2.0 * (self.omega_m * redshift + (self.omega_l - 2.0) * ...)`,
which reads the attribute `self.omega_l`.  That attribute is never
assigned anywhere in the repository (only the unused local `omega_l` is),
so every call with `redshift != 0` raises `AttributeError` before any
value is returned.  The embedding records this: the calculator is
represented by its two constructor parameters, and the general branch is
the raised error. -/

/-- Error raised by the general branch of `angular_diameter_distance`:
the attribute `self.omega_l` was never assigned by `__init__`. -/
def omegaLAttributeError : String := "AttributeError: CosmologyCalculator has no attribute omega_l"

/-- Embedding of `CosmologyCalculator.angular_diameter_distance(z)` on a
calculator constructed with parameters `(h0, omega_m)`.  The `z == 0`
branch returns `0.0`; the general branch raises `AttributeError` while
evaluating `self.omega_l` (see the section comment). -/
def angular_diameter_distance (h0 omega_m z : ℚ) : Except String ℚ :=
  if z = 0 then Except.ok 0
  else Except.error omegaLAttributeError

/-- Embedding of `CosmologyCalculator.calculate_flux_density(flux_ref,
z_ref, z_target, spectral_index)`.  The two distance calls happen first,
in order, and an exception in either propagates.  The parameter `fpow`
abstracts the Python float power operator `**` used in the otherwise
unreachable final expression (its two uses are `(d_ref/d_target) ** 2`
and `((1+z_target)/(1+z_ref)) ** spectral_index`); all theorems below
hold for every `fpow`. -/
def calculate_flux_density (fpow : ℚ → ℚ → ℚ) (h0 omega_m flux_ref z_ref z_target spectral_index : ℚ) :
    Except String ℚ :=
  match angular_diameter_distance h0 omega_m z_ref with
  | Except.error e => Except.error e
  | Except.ok d_ref =>
    match angular_diameter_distance h0 omega_m z_target with
    | Except.error e => Except.error e
    | Except.ok d_target =>
      if d_ref = 0 ∨ d_target = 0 then Except.ok flux_ref
      else Except.ok (flux_ref * fpow (d_ref / d_target) 2 *
        fpow ((1 + z_target) / (1 + z_ref)) spectral_index)

/-! ## Validators (`sos/utils/validators.py`)

The `isinstance` checks of the Python validators are subsumed by the
typing of the embedding (all inputs are rationals). -/

/-- Embedding of the per-element loop of `validate_redshifts`: raise on
the first entry outside `[MIN_REDSHIFT, MAX_REDSHIFT]`. -/
def redshiftEntriesOk : List ℚ → Except String Bool
  | [] => Except.ok true
  | z :: rest =>
    if MIN_REDSHIFT ≤ z ∧ z ≤ MAX_REDSHIFT then redshiftEntriesOk rest
    else Except.error "Redshift out of range"

/-- Embedding of `validate_redshifts`: an empty list raises, otherwise
each entry is range-checked in order and `True` is returned. -/
def validate_redshifts (redshifts : List ℚ) : Except String Bool :=
  if redshifts = [] then Except.error "Redshifts must be a non-empty list"
  else redshiftEntriesOk redshifts

/-- Embedding of `validate_flux_density`: `True` when
`MIN_FLUX_DENSITY_JY <= flux_jy <= MAX_FLUX_DENSITY_JY`, raise otherwise. -/
def validate_flux_density (flux_jy : ℚ) : Except String Bool :=
  if MIN_FLUX_DENSITY_JY ≤ flux_jy ∧ flux_jy ≤ MAX_FLUX_DENSITY_JY then Except.ok true
  else Except.error "Flux density out of range"

/-! ## Theorems about the cosmology calculator -/

/-- C8: for every valid construction pair (`h0 > 0`, `0 < omega_m < 1`),
`angular_diameter_distance(0)` returns exactly `0.0`, through the
special-cased `z == 0` branch. -/
theorem add_zero_redshift (h0 omega_m : ℚ) (hh : 0 < h0) (hm0 : 0 < omega_m)
    (hm1 : omega_m < 1) :
    angular_diameter_distance h0 omega_m 0 = Except.ok 0 := by
  simp [angular_diameter_distance]

/-- Witness for C8 at the default Planck-2015 parameters. -/
theorem add_zero_redshift_witness :
    0 < HUBBLE_CONSTANT ∧ 0 < MATTER_DENSITY_PARAMETER ∧ MATTER_DENSITY_PARAMETER < 1 ∧
      angular_diameter_distance HUBBLE_CONSTANT MATTER_DENSITY_PARAMETER 0 = Except.ok 0 :=
  ⟨by norm_num [HUBBLE_CONSTANT], by norm_num [MATTER_DENSITY_PARAMETER],
    by norm_num [MATTER_DENSITY_PARAMETER],
    add_zero_redshift HUBBLE_CONSTANT MATTER_DENSITY_PARAMETER
      (by norm_num [HUBBLE_CONSTANT]) (by norm_num [MATTER_DENSITY_PARAMETER])
      (by norm_num [MATTER_DENSITY_PARAMETER])⟩

/-- C1: for every redshift with `0 < z <= 10` and every valid construction
pair, `angular_diameter_distance(z)` does not return the closed-form value
claimed by the specification: it raises `AttributeError`, because the
attribute `self.omega_l` read by the numerator was never assigned (the
code only binds the unused local variable `omega_l`). -/
theorem add_positive_redshift_raises (h0 omega_m z : ℚ) (hh : 0 < h0)
    (hm0 : 0 < omega_m) (hm1 : omega_m < 1) (hz0 : 0 < z) (hz1 : z ≤ 10) :
    angular_diameter_distance h0 omega_m z = Except.error omegaLAttributeError := by
  have hz : z ≠ 0 := ne_of_gt hz0
  simp [angular_diameter_distance, hz]

/-- Witness for C1 at `h0 = 67.8`, `omega_m = 0.308`, `z = 0.5`. -/
theorem add_positive_redshift_raises_witness :
    0 < HUBBLE_CONSTANT ∧ 0 < MATTER_DENSITY_PARAMETER ∧ MATTER_DENSITY_PARAMETER < 1 ∧
      0 < (1 / 2 : ℚ) ∧ (1 / 2 : ℚ) ≤ 10 ∧
      angular_diameter_distance HUBBLE_CONSTANT MATTER_DENSITY_PARAMETER (1 / 2) =
        Except.error omegaLAttributeError :=
  ⟨by norm_num [HUBBLE_CONSTANT], by norm_num [MATTER_DENSITY_PARAMETER],
    by norm_num [MATTER_DENSITY_PARAMETER], by norm_num, by norm_num,
    add_positive_redshift_raises HUBBLE_CONSTANT MATTER_DENSITY_PARAMETER (1 / 2)
      (by norm_num [HUBBLE_CONSTANT]) (by norm_num [MATTER_DENSITY_PARAMETER])
      (by norm_num [MATTER_DENSITY_PARAMETER]) (by norm_num) (by norm_num)⟩

/-- C2: the reference-redshift identity fails: for every flux `F >= 0`,
redshift `0 < z <= 10` and spectral index in `[-5, 0]`,
`calculate_flux_density(F, z, z, alpha)` does not return `F` — the first
distance call already raises `AttributeError`.  The statement holds for
every interpretation `fpow` of the float power operator. -/
theorem flux_density_ref_identity_raises (fpow : ℚ → ℚ → ℚ)
    (h0 omega_m F z alpha : ℚ) (hh : 0 < h0) (hm0 : 0 < omega_m) (hm1 : omega_m < 1)
    (hF : 0 ≤ F) (hz0 : 0 < z) (hz1 : z ≤ 10) (ha0 : -5 ≤ alpha) (ha1 : alpha ≤ 0) :
    calculate_flux_density fpow h0 omega_m F z z alpha = Except.error omegaLAttributeError := by
  have hz : z ≠ 0 := ne_of_gt hz0
  simp [calculate_flux_density, angular_diameter_distance, hz]

/-- Witness for C2 at `F = 1`, `z = 0.1`, `alpha = -1.6`. -/
theorem flux_density_ref_identity_raises_witness :
    0 < (1 / 10 : ℚ) ∧
      calculate_flux_density (fun x _ => x) HUBBLE_CONSTANT MATTER_DENSITY_PARAMETER
        1 (1 / 10) (1 / 10) (-8 / 5) = Except.error omegaLAttributeError :=
  ⟨by norm_num,
    flux_density_ref_identity_raises (fun x _ => x) HUBBLE_CONSTANT MATTER_DENSITY_PARAMETER
      1 (1 / 10) (-8 / 5) (by norm_num [HUBBLE_CONSTANT])
      (by norm_num [MATTER_DENSITY_PARAMETER]) (by norm_num [MATTER_DENSITY_PARAMETER])
      (by norm_num) (by norm_num) (by norm_num) (by norm_num) (by norm_num)⟩

/-- C6: the degenerate short-circuit fails on the code.  At
`z_ref = 0`, `z_target = 0.5` (both in `[0, 10]`) the hypothesis of the
claim holds — `angular_diameter_distance(z_ref)` returns `0` — yet
`calculate_flux_density(1, 0, 0.5, -1.6)` does not return the reference
flux unchanged: the second distance call raises `AttributeError` before
the short-circuit test is reached. -/
theorem flux_density_short_circuit_raises :
    angular_diameter_distance HUBBLE_CONSTANT MATTER_DENSITY_PARAMETER 0 = Except.ok 0 ∧
      calculate_flux_density (fun x _ => x) HUBBLE_CONSTANT MATTER_DENSITY_PARAMETER
        1 0 (1 / 2) (-8 / 5) = Except.error omegaLAttributeError := by
  constructor
  · simp [angular_diameter_distance]
  · norm_num [calculate_flux_density, angular_diameter_distance]

/-! ## Theorems about the validators -/

/-- Helper: a list all of whose entries lie in `[0, 10]` passes the
per-element range check. -/
theorem redshiftEntriesOk_of_forall (rs : List ℚ) (h : ∀ z ∈ rs, 0 ≤ z ∧ z ≤ 10) :
    redshiftEntriesOk rs = Except.ok true := by
  induction rs with
  | nil => rfl
  | cons z rest ih =>
    have hz := h z (List.mem_cons_self z rest)
    have hc : MIN_REDSHIFT ≤ z ∧ z ≤ MAX_REDSHIFT := by
      constructor
      · simpa [MIN_REDSHIFT] using hz.1
      · simpa [MAX_REDSHIFT] using hz.2
    simp only [redshiftEntriesOk, if_pos hc]
    exact ih (fun w hw => h w (List.mem_cons_of_mem z hw))

/-- C9: `validate_redshifts` raises on `[]`, raises on `[-0.1, 0.5]` and
on `[0.1, 100.0]`, succeeds on every non-empty list of values inside
`[0, 10]`, and in particular succeeds on the 13-element list
`[0.05, 0.1, 0.13, 0.15, 0.17, 0.2, 0.3, 0.4, 0.5, 0.6, 0.8, 0.9, 1.0]`. -/
theorem validate_redshifts_spec :
    validate_redshifts [] = Except.error "Redshifts must be a non-empty list" ∧
      validate_redshifts [-1 / 10, 1 / 2] = Except.error "Redshift out of range" ∧
      validate_redshifts [1 / 10, 100] = Except.error "Redshift out of range" ∧
      (∀ rs : List ℚ, rs ≠ [] → (∀ z ∈ rs, 0 ≤ z ∧ z ≤ 10) →
        validate_redshifts rs = Except.ok true) ∧
      validate_redshifts
        [1 / 20, 1 / 10, 13 / 100, 3 / 20, 17 / 100, 1 / 5, 3 / 10, 2 / 5, 1 / 2,
          3 / 5, 4 / 5, 9 / 10, 1] = Except.ok true := by
  refine ⟨rfl, ?_, ?_, ?_, ?_⟩
  · rw [validate_redshifts, if_neg (by simp)]
    norm_num [redshiftEntriesOk, MIN_REDSHIFT, MAX_REDSHIFT]
  · rw [validate_redshifts, if_neg (by simp)]
    norm_num [redshiftEntriesOk, MIN_REDSHIFT, MAX_REDSHIFT]
  swap
  · rw [validate_redshifts, if_neg (by simp)]
    norm_num [redshiftEntriesOk, MIN_REDSHIFT, MAX_REDSHIFT]
  intro rs hne hall
  unfold validate_redshifts
  rw [if_neg hne]
  exact redshiftEntriesOk_of_forall rs hall

/-- Witness for the universally quantified clause of C9, at the
concrete singleton list `[0.5]`. -/
theorem validate_redshifts_spec_witness :
    validate_redshifts [1 / 2] = Except.ok true :=
  validate_redshifts_spec.2.2.2.1 [1 / 2] (by simp)
    (by intro z hz; rw [List.mem_singleton.mp hz]; norm_num)

/-- C10: `validate_flux_density` accepts exactly the closed interval
`[0, 1e6]` Jy, and rejects `2e6` Jy even though it is non-negative. -/
theorem validate_flux_density_interval :
    (∀ f : ℚ, validate_flux_density f = Except.ok true ↔ 0 ≤ f ∧ f ≤ 1000000) ∧
      validate_flux_density 2000000 = Except.error "Flux density out of range" := by
  constructor
  · intro f
    by_cases h : MIN_FLUX_DENSITY_JY ≤ f ∧ f ≤ MAX_FLUX_DENSITY_JY
    · rw [validate_flux_density, if_pos h]
      exact ⟨fun _ => ⟨by simpa [MIN_FLUX_DENSITY_JY] using h.1,
        by simpa [MAX_FLUX_DENSITY_JY] using h.2⟩, fun _ => rfl⟩
    · rw [validate_flux_density, if_neg h]
      constructor
      · intro hcontra; exact Except.noConfusion hcontra
      · intro hf
        exact absurd ⟨by simpa [MIN_FLUX_DENSITY_JY] using hf.1,
          by simpa [MAX_FLUX_DENSITY_JY] using hf.2⟩ h
  · norm_num [validate_flux_density, MIN_FLUX_DENSITY_JY, MAX_FLUX_DENSITY_JY]

/-- Witness for C10 applied at the concrete flux `2e6` Jy. -/
theorem validate_flux_density_interval_witness :
    validate_flux_density 2000000 ≠ Except.ok true := by
  intro h
  have := (validate_flux_density_interval.1 2000000).mp h
  exact absurd this.2 (by norm_num)

/-! ## Coordinate codec (`sos/utils/coordinates.py`)

Python strings are `List Char`.  Python `int(x)` truncates toward zero
(`pyInt`); the format directive `f"{x:.2f}"` rounds half to even on the
value (`rhe`, `round2`); `f"{n:02d}"` is `fmt02`, `f"{x:05.2f}"` is
`fmt052`, and `str(n)` on an integer is `strInt`. -/

/-- Constant `RA_ARCSEC_PER_SECOND = 15.0` from `sos/constants.py`. -/
def RA_ARCSEC_PER_SECOND : ℚ := 15

/-- Truncation toward zero, the behaviour of Python `int()` on a float. -/
def pyInt (q : ℚ) : ℤ := if q < 0 then -⌊-q⌋ else ⌊q⌋

/-- Round half to even, the rounding mode of Python float formatting. -/
def rhe (q : ℚ) : ℤ :=
  if q - ⌊q⌋ < 1 / 2 then ⌊q⌋
  else if 1 / 2 < q - ⌊q⌋ then ⌊q⌋ + 1
  else if ⌊q⌋ % 2 = 0 then ⌊q⌋ else ⌊q⌋ + 1

/-- Effect of `float(f"{x:.2f}")`: round to two decimal places. -/
def round2 (q : ℚ) : ℚ := (rhe (100 * q) : ℚ) / 100

/-- Decimal digit character for `n % 10`. -/
def dChar (n : ℕ) : Char := Char.ofNat (48 + n % 10)

/-- Numeric value of a digit character. -/
def digitVal (c : Char) : ℕ := c.toNat - 48

/-- Little-endian decimal digits of `n`, with explicit fuel (structural
recursion so that the kernel can evaluate it). -/
def toDigitsRevFuel : ℕ → ℕ → List Char
  | 0, _ => []
  | fuel + 1, n => if n = 0 then [] else dChar n :: toDigitsRevFuel fuel (n / 10)

/-- Decimal numeral of a natural number, as Python `str()` renders it. -/
def numeral (n : ℕ) : List Char := if n = 0 then ['0'] else (toDigitsRevFuel n n).reverse

/-- Python `f"{n:02d}"` for a non-negative value: pad to two digits. -/
def pad2 (n : ℕ) : List Char := if n < 10 then '0' :: numeral n else numeral n

/-- Python `f"{n:02d}"` on an integer. -/
def fmt02 (n : ℤ) : List Char := if n < 0 then '-' :: numeral n.natAbs else pad2 n.toNat

/-- Python `str(n)` on an integer. -/
def strInt (n : ℤ) : List Char := if n < 0 then '-' :: numeral n.natAbs else numeral n.toNat

/-- Python `f"{x:05.2f}"`: round half to even at two decimals, print with
two integer digits (more when the value needs them) and two decimals.
The negative case never arises in this development (all formatted
seconds values are non-negative). -/
def fmt052 (x : ℚ) : List Char :=
  if rhe (100 * x) < 0 then
    '-' :: (pad2 ((rhe (100 * x)).natAbs / 100) ++ '.' :: pad2 ((rhe (100 * x)).natAbs % 100))
  else pad2 ((rhe (100 * x)).toNat / 100) ++ '.' :: pad2 ((rhe (100 * x)).toNat % 100)

/-! ### `ra_arcsec_to_hms`

Each local variable of the Python function is a definition: `ra_hours =
ra_arcsec / (3600.0 * RA_ARCSEC_PER_SECOND)`, `hours = int(ra_hours)`,
`remainder = 60.0 * (ra_hours - hours)`, `minutes = int(remainder)`,
`seconds = 60.0 * (remainder - minutes)` then rounded to two decimals,
and the result string is `f"{hours:02d}h{minutes:02d}m{seconds:05.2f}s"`. -/

/-- Local `ra_hours` of `ra_arcsec_to_hms`. -/
def raHoursOf (q : ℚ) : ℚ := q / (3600 * RA_ARCSEC_PER_SECOND)

/-- Local `hours` of `ra_arcsec_to_hms`. -/
def raHoursInt (q : ℚ) : ℤ := pyInt (raHoursOf q)

/-- Local `remainder` of `ra_arcsec_to_hms`. -/
def raRemainder (q : ℚ) : ℚ := 60 * (raHoursOf q - raHoursInt q)

/-- Local `minutes` of `ra_arcsec_to_hms`. -/
def raMinutesInt (q : ℚ) : ℤ := pyInt (raRemainder q)

/-- Local `seconds` of `ra_arcsec_to_hms` (before rounding). -/
def raSeconds (q : ℚ) : ℚ := 60 * (raRemainder q - raMinutesInt q)

/-- Embedding of `ra_arcsec_to_hms`: negative input raises `ValueError`,
otherwise the sexagesimal string is produced with no carry normalisation
after rounding. -/
def ra_arcsec_to_hms (q : ℚ) : Except String (List Char) :=
  if q < 0 then Except.error "RA in arcseconds must be non-negative"
  else Except.ok (fmt02 (raHoursInt q) ++ 'h' :: (fmt02 (raMinutesInt q) ++ 'm' ::
    (fmt052 (round2 (raSeconds q)) ++ ['s'])))

/-! ### `dec_arcsec_to_dms`

The Python function branches on the sign of `deg_value = dec_arcsec /
3600.0`.  Negative branch: `degrees = int(abs(deg_value))`, `remainder =
60.0 * (deg_value + degrees)`, `arcminutes = int(abs(remainder))`,
`arcseconds = abs(60.0 * (remainder + arcminutes))`, rounded, and the
string is `f"-{degrees}d{arcminutes}m{arcseconds:05.2f}s"` — note that
`degrees` and `arcminutes` are interpolated with `str()`, without the
two-digit zero padding that the RA formatter applies.  The positive
branch is the mirror image with `+`. -/

/-- Local `deg_value` of `dec_arcsec_to_dms`. -/
def decDegValue (d : ℚ) : ℚ := d / 3600

/-- Local `degrees` of the negative branch. -/
def decDegNeg (d : ℚ) : ℤ := pyInt |decDegValue d|

/-- Local `remainder` of the negative branch. -/
def decRemNeg (d : ℚ) : ℚ := 60 * (decDegValue d + decDegNeg d)

/-- Local `arcminutes` of the negative branch. -/
def decMinNeg (d : ℚ) : ℤ := pyInt |decRemNeg d|

/-- Local `arcseconds` of the negative branch. -/
def decSecNeg (d : ℚ) : ℚ := |60 * (decRemNeg d + decMinNeg d)|

/-- Local `degrees` of the positive branch. -/
def decDegPos (d : ℚ) : ℤ := pyInt (decDegValue d)

/-- Local `remainder` of the positive branch. -/
def decRemPos (d : ℚ) : ℚ := 60 * (decDegValue d - decDegPos d)

/-- Local `arcminutes` of the positive branch. -/
def decMinPos (d : ℚ) : ℤ := pyInt (decRemPos d)

/-- Local `arcseconds` of the positive branch. -/
def decSecPos (d : ℚ) : ℚ := 60 * (decRemPos d - decMinPos d)

/-- Embedding of `dec_arcsec_to_dms` (total: the Python function raises
nothing). -/
def dec_arcsec_to_dms (d : ℚ) : List Char :=
  if decDegValue d < 0 then
    '-' :: (strInt (decDegNeg d) ++ 'd' :: (strInt (decMinNeg d) ++ 'm' ::
      (fmt052 (round2 (decSecNeg d)) ++ ['s'])))
  else
    '+' :: (strInt (decDegPos d) ++ 'd' :: (strInt (decMinPos d) ++ 'm' ::
      (fmt052 (round2 (decSecPos d)) ++ ['s'])))

/-! ### Parsing (`parse_ra_hms`, `parse_dec_dms`)

The Python parsers first replace the unit letters by `":"` and drop
`"s"` (`str.replace`), split on `":"` (`str.split`), then convert each
part with `float()` and range-check.  `splitOn` is Python `str.split`
on a single separator character; `parseDecimal`/`decimalValue` model
`float()` restricted to plain decimal literals with an optional sign —
the only shapes that occur in this development (Python `float()` also
accepts exponents, `inf`, `nan`, underscores and surrounding whitespace,
none of which can appear here). -/

/-- Python `str.replace(a, b)` for single characters. -/
def replace1 (a b : Char) (cs : List Char) : List Char :=
  cs.map (fun c => if c = a then b else c)

/-- Python `str.replace("s", "")`: remove every `'s'`. -/
def removeS (cs : List Char) : List Char := cs.filter (fun c => c != 's')

/-- Helper for `splitOn`: push a character onto the first part. -/
def consHead (c : Char) : List (List Char) → List (List Char)
  | [] => [[c]]
  | p :: ps => (c :: p) :: ps

/-- Python `str.split(sep)` for a single-character separator. -/
def splitOn (s : Char) : List Char → List (List Char)
  | [] => [[]]
  | c :: cs => if c = s then [] :: splitOn s cs else consHead c (splitOn s cs)

/-- Value of a run of decimal digit characters (most significant first). -/
def parseNatDigits (cs : List Char) : ℕ := cs.foldl (fun a c => 10 * a + digitVal c) 0

/-- Character-level part of `float()`: split an unsigned decimal literal
into integer digits and fractional digits, rejecting anything else. -/
def parseDigitsParts (cs : List Char) (neg : Bool) : Option (Bool × List Char × List Char) :=
  match splitOn '.' cs with
  | [I] => if I ≠ [] ∧ I.all Char.isDigit then some (neg, I, []) else none
  | [I, F] =>
    if (I ≠ [] ∨ F ≠ []) ∧ I.all Char.isDigit ∧ F.all Char.isDigit then some (neg, I, F)
    else none
  | _ => none

/-- Character-level part of `float()`: optional sign, then digits. -/
def parseDecimal (cs : List Char) : Option (Bool × List Char × List Char) :=
  match cs with
  | [] => none
  | c :: rest =>
    if c = '+' then parseDigitsParts rest false
    else if c = '-' then parseDigitsParts rest true
    else parseDigitsParts (c :: rest) false

/-- Numeric value of a parsed decimal literal. -/
def decimalValue : Bool × List Char × List Char → ℚ
  | (neg, I, F) =>
    (if neg then -1 else 1) * ((parseNatDigits I : ℚ) + (parseNatDigits F : ℚ) / 10 ^ F.length)

/-- Python `float()` on a plain decimal literal. -/
def parseFloat (cs : List Char) : Option ℚ := (parseDecimal cs).map decimalValue

/-- Separator processing and split of `parse_ra_hms`: replace `"h"` and
`"m"` by `":"`, drop `"s"`, split on `":"`, and require exactly three
parts. -/
def raParts (cs : List Char) : Option (List Char × List Char × List Char) :=
  match splitOn ':' (removeS (replace1 'm' ':' (replace1 'h' ':' cs))) with
  | [p0, p1, p2] => some (p0, p1, p2)
  | _ => none

/-- Embedding of `parse_ra_hms`: three colon-separated fields after
separator replacement, each a `float()` value, range-checked to
`0 <= hours < 24`, `0 <= minutes < 60`, `0 <= seconds < 60`, giving
decimal hours. -/
def parse_ra_hms (cs : List Char) : Except String ℚ :=
  match raParts cs with
  | none => Except.error "Invalid RA format. Expected HH:MM:SS.S"
  | some (p0, p1, p2) =>
    match parseDecimal p0, parseDecimal p1, parseDecimal p2 with
    | some t0, some t1, some t2 =>
      if 0 ≤ decimalValue t0 ∧ decimalValue t0 < 24 ∧ 0 ≤ decimalValue t1 ∧
          decimalValue t1 < 60 ∧ 0 ≤ decimalValue t2 ∧ decimalValue t2 < 60 then
        Except.ok (decimalValue t0 + decimalValue t1 / 60 + decimalValue t2 / 3600)
      else Except.error "RA values out of range"
    | _, _, _ => Except.error "Could not parse RA components"

/-- Sign factor stripped by `parse_dec_dms` before separator processing. -/
def decSignVal (cs : List Char) : ℚ :=
  match cs with
  | '-' :: _ => -1
  | _ => 1

/-- Body of the DEC string after the optional leading sign is stripped. -/
def decBody (cs : List Char) : List Char :=
  match cs with
  | '-' :: rest => rest
  | '+' :: rest => rest
  | cs => cs

/-- Separator processing and split of `parse_dec_dms`: replace `"d"` and
`"m"` by `":"`, drop `"s"`, split on `":"`, and require exactly three
parts. -/
def decParts (cs : List Char) : Option (List Char × List Char × List Char) :=
  match splitOn ':' (removeS (replace1 'm' ':' (replace1 'd' ':' cs))) with
  | [p0, p1, p2] => some (p0, p1, p2)
  | _ => none

/-- Embedding of `parse_dec_dms`: optional sign, three fields, each a
`float()` value, range-checked to `0 <= degrees < 360`,
`0 <= arcminutes < 60`, `0 <= arcseconds < 60`, giving signed decimal
degrees. -/
def parse_dec_dms (cs : List Char) : Except String ℚ :=
  match decParts (decBody cs) with
  | none => Except.error "Invalid DEC format. Expected DD:MM:SS.S"
  | some (p0, p1, p2) =>
    match parseDecimal p0, parseDecimal p1, parseDecimal p2 with
    | some t0, some t1, some t2 =>
      if 0 ≤ decimalValue t0 ∧ decimalValue t0 < 360 ∧ 0 ≤ decimalValue t1 ∧
          decimalValue t1 < 60 ∧ 0 ≤ decimalValue t2 ∧ decimalValue t2 < 60 then
        Except.ok (decSignVal cs *
          (decimalValue t0 + decimalValue t1 / 60 + decimalValue t2 / 3600))
      else Except.error "DEC values out of range"
    | _, _, _ => Except.error "Could not parse DEC components"

/-! ## Digit and numeral lemmas -/

/-- Digit characters produced by `dChar` satisfy `Char.isDigit`. -/
theorem dChar_isDigit (k : ℕ) : (dChar k).isDigit = true := by
  have h : k % 10 = 0 ∨ k % 10 = 1 ∨ k % 10 = 2 ∨ k % 10 = 3 ∨ k % 10 = 4 ∨ k % 10 = 5 ∨
      k % 10 = 6 ∨ k % 10 = 7 ∨ k % 10 = 8 ∨ k % 10 = 9 := by omega
  unfold dChar
  rcases h with h | h | h | h | h | h | h | h | h | h <;> rw [h] <;> decide

/-- Value of the digit character of `k`. -/
theorem digitVal_dChar (k : ℕ) : digitVal (dChar k) = k % 10 := by
  have h : k % 10 = 0 ∨ k % 10 = 1 ∨ k % 10 = 2 ∨ k % 10 = 3 ∨ k % 10 = 4 ∨ k % 10 = 5 ∨
      k % 10 = 6 ∨ k % 10 = 7 ∨ k % 10 = 8 ∨ k % 10 = 9 := by omega
  unfold dChar
  rcases h with h | h | h | h | h | h | h | h | h | h <;> rw [h] <;> decide

/-- Every character emitted by `toDigitsRevFuel` is a digit. -/
theorem toDigitsRevFuel_digits (fuel : ℕ) :
    ∀ n, ∀ c ∈ toDigitsRevFuel fuel n, c.isDigit = true := by
  induction fuel with
  | zero => intro n c hc; simp [toDigitsRevFuel] at hc
  | succ fuel ih =>
    intro n c hc
    by_cases hn : n = 0
    · simp [toDigitsRevFuel, hn] at hc
    · rw [toDigitsRevFuel, if_neg hn] at hc
      rcases List.mem_cons.mp hc with rfl | hc
      · exact dChar_isDigit n
      · exact ih _ c hc

/-- Folding one more digit onto the right of a digit run. -/
theorem parseNatDigits_append_digit (l : List Char) (c : Char) :
    parseNatDigits (l ++ [c]) = 10 * parseNatDigits l + digitVal c := by
  simp [parseNatDigits, List.foldl_append]

/-- The digit run of `n` parses back to `n`. -/
theorem parseNatDigits_toDigitsRev (fuel : ℕ) :
    ∀ n, n ≤ fuel → parseNatDigits (toDigitsRevFuel fuel n).reverse = n := by
  induction fuel with
  | zero =>
    intro n hn
    have : n = 0 := by omega
    subst this
    rfl
  | succ fuel ih =>
    intro n hn
    by_cases hn0 : n = 0
    · subst hn0; rfl
    · have hd : n / 10 ≤ fuel := by
        have := Nat.div_lt_self (Nat.pos_of_ne_zero hn0) (by norm_num : (1 : ℕ) < 10)
        omega
      rw [toDigitsRevFuel, if_neg hn0, List.reverse_cons, parseNatDigits_append_digit,
        ih _ hd, digitVal_dChar]
      omega

/-- Characters of a numeral are digits. -/
theorem numeral_digits (n : ℕ) : ∀ c ∈ numeral n, c.isDigit = true := by
  intro c hc
  unfold numeral at hc
  by_cases hn : n = 0
  · rw [if_pos hn] at hc
    rw [List.mem_singleton.mp hc]
    decide
  · rw [if_neg hn] at hc
    exact toDigitsRevFuel_digits n n c (List.mem_reverse.mp hc)

/-- A numeral parses back to its value. -/
theorem parseNatDigits_numeral (n : ℕ) : parseNatDigits (numeral n) = n := by
  unfold numeral
  by_cases hn : n = 0
  · rw [if_pos hn, hn]; rfl
  · rw [if_neg hn]; exact parseNatDigits_toDigitsRev n n le_rfl

/-- Numerals are never empty. -/
theorem numeral_ne_nil (n : ℕ) : numeral n ≠ [] := by
  unfold numeral
  by_cases hn : n = 0
  · rw [if_pos hn]; simp
  · rw [if_neg hn]
    obtain ⟨m, rfl⟩ := Nat.exists_eq_succ_of_ne_zero hn
    rw [toDigitsRevFuel, if_neg hn]
    simp

/-- Characters of a two-padded numeral are digits. -/
theorem pad2_digits (n : ℕ) : ∀ c ∈ pad2 n, c.isDigit = true := by
  intro c hc
  unfold pad2 at hc
  by_cases h : n < 10
  · rw [if_pos h] at hc
    rcases List.mem_cons.mp hc with rfl | hc
    · decide
    · exact numeral_digits n c hc
  · rw [if_neg h] at hc
    exact numeral_digits n c hc

/-- Leading zeros do not change the parsed value. -/
theorem parseNatDigits_cons_zero (l : List Char) :
    parseNatDigits ('0' :: l) = parseNatDigits l := by
  have h : 10 * 0 + digitVal '0' = 0 := by decide
  simp only [parseNatDigits, List.foldl_cons]
  rw [h]

/-- A two-padded numeral parses back to its value. -/
theorem parseNatDigits_pad2 (n : ℕ) : parseNatDigits (pad2 n) = n := by
  unfold pad2
  by_cases h : n < 10
  · rw [if_pos h, parseNatDigits_cons_zero]
    exact parseNatDigits_numeral n
  · rw [if_neg h]
    exact parseNatDigits_numeral n

/-- Two-padded numerals are never empty. -/
theorem pad2_ne_nil (n : ℕ) : pad2 n ≠ [] := by
  unfold pad2
  by_cases h : n < 10
  · rw [if_pos h]; simp
  · rw [if_neg h]; exact numeral_ne_nil n

/-- Values below `100` pad to exactly two characters. -/
theorem pad2_length_two : ∀ n < 100, (pad2 n).length = 2 := by decide

/-! ## Rounding lemmas -/

/-- Round half to even is the identity on integers. -/
theorem rhe_intCast (n : ℤ) : rhe (n : ℚ) = n := by
  unfold rhe
  rw [Int.floor_intCast]
  norm_num

/-- Round half to even moves a value by at most one half. -/
theorem abs_rhe_sub (q : ℚ) : |(rhe q : ℚ) - q| ≤ 1 / 2 := by
  have h0 : (⌊q⌋ : ℚ) ≤ q := Int.floor_le q
  have h1 : q < ⌊q⌋ + 1 := Int.lt_floor_add_one q
  unfold rhe
  by_cases hc1 : q - ⌊q⌋ < 1 / 2
  · rw [if_pos hc1, abs_le]
    constructor <;> linarith
  · push_neg at hc1
    rw [if_neg (not_lt.mpr hc1)]
    by_cases hc2 : 1 / 2 < q - ⌊q⌋
    · rw [if_pos hc2]
      push_cast
      rw [abs_le]
      constructor <;> linarith
    · push_neg at hc2
      rw [if_neg (not_lt.mpr hc2)]
      by_cases hc3 : ⌊q⌋ % 2 = 0
      · rw [if_pos hc3, abs_le]
        constructor <;> linarith
      · rw [if_neg hc3]
        push_cast
        rw [abs_le]
        constructor <;> linarith

/-- Round half to even preserves non-negativity. -/
theorem rhe_nonneg (q : ℚ) (h : 0 ≤ q) : 0 ≤ rhe q := by
  have h0 : 0 ≤ ⌊q⌋ := Int.floor_nonneg.mpr h
  unfold rhe
  split_ifs <;> omega

/-- Round half to even of a value below an integer stays at most that
integer. -/
theorem rhe_le_of_lt (q : ℚ) (n : ℤ) (h : q < n) : rhe q ≤ n := by
  have h0 : ⌊q⌋ < n := Int.floor_lt.mpr (by exact_mod_cast h)
  unfold rhe
  split_ifs <;> omega

/-- Python truncation equals the floor on non-negative values. -/
theorem pyInt_of_nonneg (q : ℚ) (h : 0 ≤ q) : pyInt q = ⌊q⌋ := by
  unfold pyInt
  rw [if_neg (not_lt.mpr h)]

/-! ## String processing lemmas -/

/-- A digit character is none of the separator characters. -/
theorem isDigit_ne (c : Char) (h : c.isDigit = true) :
    c ≠ ':' ∧ c ≠ '.' ∧ c ≠ '+' ∧ c ≠ '-' ∧ c ≠ 'h' ∧ c ≠ 'm' ∧ c ≠ 's' ∧ c ≠ 'd' := by
  refine ⟨?_, ?_, ?_, ?_, ?_, ?_, ?_, ?_⟩ <;> (rintro rfl; exact absurd h (by decide))

/-- Replacement is the identity on a string without the target character. -/
theorem replace1_eq_self (a b : Char) (l : List Char) (h : ∀ c ∈ l, c ≠ a) :
    replace1 a b l = l := by
  induction l with
  | nil => rfl
  | cons c cs ih =>
    have ih' := ih (fun x hx => h x (List.mem_cons_of_mem _ hx))
    simp only [replace1] at ih' ⊢
    rw [List.map_cons, if_neg (h c (List.mem_cons_self c cs)), ih']

/-- Removal of `'s'` is the identity on a string without `'s'`. -/
theorem removeS_eq_self (l : List Char) (h : ∀ c ∈ l, c ≠ 's') : removeS l = l := by
  unfold removeS
  rw [List.filter_eq_self]
  intro a ha
  exact bne_iff_ne.mpr (h a ha)

/-- Splitting a string without the separator yields one part. -/
theorem splitOn_sepFree (s : Char) (cs : List Char) (h : ∀ c ∈ cs, c ≠ s) :
    splitOn s cs = [cs] := by
  induction cs with
  | nil => rfl
  | cons c cs ih =>
    have ih' := ih (fun x hx => h x (List.mem_cons_of_mem _ hx))
    simp only [splitOn, if_neg (h c (List.mem_cons_self c cs)), ih', consHead]

/-- Splitting at the first separator occurrence. -/
theorem splitOn_append (s : Char) (A R : List Char) (h : ∀ c ∈ A, c ≠ s) :
    splitOn s (A ++ s :: R) = A :: splitOn s R := by
  induction A with
  | nil => simp [splitOn]
  | cons c A ih =>
    have ih' := ih (fun x hx => h x (List.mem_cons_of_mem _ hx))
    simp only [List.cons_append, splitOn, if_neg (h c (List.mem_cons_self c A)),
      List.append_eq, ih', consHead]

/-! ## Decimal literal parsing lemmas -/

/-- A non-empty digit run is accepted by the digits stage as an integer
literal. -/
theorem parseDigitsParts_digits (I : List Char) (hne : I ≠ [])
    (hdig : ∀ c ∈ I, c.isDigit = true) (neg : Bool) :
    parseDigitsParts I neg = some (neg, I, []) := by
  have hsplit : splitOn '.' I = [I] :=
    splitOn_sepFree '.' I (fun c hc => (isDigit_ne c (hdig c hc)).2.1)
  unfold parseDigitsParts
  rw [hsplit]
  show (if I ≠ [] ∧ I.all Char.isDigit then some (neg, I, []) else none) = some (neg, I, [])
  rw [if_pos ⟨hne, List.all_eq_true.mpr hdig⟩]

/-- A digit run, a point and a second digit run are accepted by the
digits stage as a fractional literal. -/
theorem parseDigitsParts_frac (I F : List Char) (hne : I ≠ [])
    (hI : ∀ c ∈ I, c.isDigit = true) (hF : ∀ c ∈ F, c.isDigit = true) (neg : Bool) :
    parseDigitsParts (I ++ '.' :: F) neg = some (neg, I, F) := by
  have hsplit : splitOn '.' (I ++ '.' :: F) = I :: splitOn '.' F :=
    splitOn_append '.' I F (fun c hc => (isDigit_ne c (hI c hc)).2.1)
  have hsplitF : splitOn '.' F = [F] :=
    splitOn_sepFree '.' F (fun c hc => (isDigit_ne c (hF c hc)).2.1)
  unfold parseDigitsParts
  rw [hsplit, hsplitF]
  show (if (I ≠ [] ∨ F ≠ []) ∧ I.all Char.isDigit ∧ F.all Char.isDigit then some (neg, I, F)
    else none) = some (neg, I, F)
  rw [if_pos ⟨Or.inl hne, List.all_eq_true.mpr hI, List.all_eq_true.mpr hF⟩]

/-- Python float parsing of a non-empty unsigned digit run. -/
theorem parseDecimal_digits (l : List Char) (hne : l ≠ [])
    (hdig : ∀ c ∈ l, c.isDigit = true) :
    parseDecimal l = some (false, l, []) := by
  cases l with
  | nil => exact absurd rfl hne
  | cons c rest =>
    have hc := hdig c (List.mem_cons_self c rest)
    simp only [parseDecimal, if_neg (isDigit_ne c hc).2.2.1, if_neg (isDigit_ne c hc).2.2.2.1]
    exact parseDigitsParts_digits (c :: rest) (by simp) hdig false

/-- Python float parsing of an unsigned fractional literal. -/
theorem parseDecimal_frac (I F : List Char) (hne : I ≠ [])
    (hI : ∀ c ∈ I, c.isDigit = true) (hF : ∀ c ∈ F, c.isDigit = true) :
    parseDecimal (I ++ '.' :: F) = some (false, I, F) := by
  cases I with
  | nil => exact absurd rfl hne
  | cons c rest =>
    have hc := hI c (List.mem_cons_self c rest)
    simp only [List.cons_append, parseDecimal, if_neg (isDigit_ne c hc).2.2.1,
      if_neg (isDigit_ne c hc).2.2.2.1]
    rw [← List.cons_append]
    exact parseDigitsParts_frac (c :: rest) F (by simp) hI hF false

/-- Value of a parsed integer literal. -/
theorem decimalValue_int (I : List Char) :
    decimalValue (false, I, []) = (parseNatDigits I : ℚ) := by
  simp [decimalValue, parseNatDigits]

/-- Value of a parsed fractional literal. -/
theorem decimalValue_frac (I F : List Char) :
    decimalValue (false, I, F) =
      (parseNatDigits I : ℚ) + (parseNatDigits F : ℚ) / 10 ^ F.length := by
  simp [decimalValue]

/-! ## Parser evaluation lemmas -/

/-- Evaluation of `parse_ra_hms` once the three fields and their decimal
parses are known. -/
theorem parse_ra_hms_eval (cs A B C : List Char) (tA tB tC : Bool × List Char × List Char)
    (hparts : raParts cs = some (A, B, C)) (hA : parseDecimal A = some tA)
    (hB : parseDecimal B = some tB) (hC : parseDecimal C = some tC) :
    parse_ra_hms cs =
      if 0 ≤ decimalValue tA ∧ decimalValue tA < 24 ∧ 0 ≤ decimalValue tB ∧
          decimalValue tB < 60 ∧ 0 ≤ decimalValue tC ∧ decimalValue tC < 60 then
        Except.ok (decimalValue tA + decimalValue tB / 60 + decimalValue tC / 3600)
      else Except.error "RA values out of range" := by
  simp only [parse_ra_hms, hparts, hA, hB, hC]

/-- Evaluation of `parse_dec_dms` once the sign, the three fields and
their decimal parses are known. -/
theorem parse_dec_dms_eval (cs A B C : List Char) (tA tB tC : Bool × List Char × List Char)
    (hparts : decParts (decBody cs) = some (A, B, C)) (hA : parseDecimal A = some tA)
    (hB : parseDecimal B = some tB) (hC : parseDecimal C = some tC) :
    parse_dec_dms cs =
      if 0 ≤ decimalValue tA ∧ decimalValue tA < 360 ∧ 0 ≤ decimalValue tB ∧
          decimalValue tB < 60 ∧ 0 ≤ decimalValue tC ∧ decimalValue tC < 60 then
        Except.ok (decSignVal cs *
          (decimalValue tA + decimalValue tB / 60 + decimalValue tC / 3600))
      else Except.error "DEC values out of range" := by
  simp only [parse_dec_dms, hparts, hA, hB, hC]

/-! ## Distribution lemmas for the separator pipeline -/

/-- Replacement distributes over concatenation. -/
theorem replace1_append (a b : Char) (l1 l2 : List Char) :
    replace1 a b (l1 ++ l2) = replace1 a b l1 ++ replace1 a b l2 := by
  simp [replace1]

/-- Replacement hits the target character. -/
theorem replace1_cons_eq (a b : Char) (cs : List Char) :
    replace1 a b (a :: cs) = b :: replace1 a b cs := by
  simp [replace1]

/-- Replacement passes other characters through. -/
theorem replace1_cons_ne (a b c : Char) (cs : List Char) (h : c ≠ a) :
    replace1 a b (c :: cs) = c :: replace1 a b cs := by
  simp [replace1, h]

/-- Replacement on the empty string. -/
theorem replace1_nil (a b : Char) : replace1 a b [] = [] := rfl

/-- Removal of `'s'` distributes over concatenation. -/
theorem removeS_append (l1 l2 : List Char) :
    removeS (l1 ++ l2) = removeS l1 ++ removeS l2 := by
  simp [removeS]

/-- Removal drops `'s'`. -/
theorem removeS_cons_s (cs : List Char) : removeS ('s' :: cs) = removeS cs := by
  simp [removeS]

/-- Removal passes other characters through. -/
theorem removeS_cons_ne (c : Char) (cs : List Char) (h : c ≠ 's') :
    removeS (c :: cs) = c :: removeS cs := by
  simp [removeS, List.filter_cons, h]

/-- Removal on the empty string. -/
theorem removeS_nil : removeS [] = [] := rfl

/-- Separator processing of a three-field string of the shape emitted by
the formatters: the unit letters are turned into colons, the trailing
`'s'` is dropped, and the split recovers the three fields. -/
theorem parts_of_fields (u : Char) (X Y Z : List Char)
    (hX : ∀ c ∈ X, c ≠ u ∧ c ≠ 'm' ∧ c ≠ 's' ∧ c ≠ ':')
    (hY : ∀ c ∈ Y, c ≠ u ∧ c ≠ 'm' ∧ c ≠ 's' ∧ c ≠ ':')
    (hZ : ∀ c ∈ Z, c ≠ u ∧ c ≠ 'm' ∧ c ≠ 's' ∧ c ≠ ':')
    (hum : u ≠ 'm') (hus : u ≠ 's') :
    splitOn ':' (removeS (replace1 'm' ':' (replace1 u ':'
      (X ++ u :: (Y ++ 'm' :: (Z ++ ['s'])))))) = [X, Y, Z] := by
  have s1 : replace1 u ':' (X ++ u :: (Y ++ 'm' :: (Z ++ ['s']))) =
      X ++ ':' :: (Y ++ 'm' :: (Z ++ ['s'])) := by
    rw [replace1_append, replace1_cons_eq, replace1_append,
      replace1_cons_ne u ':' 'm' _ (Ne.symm hum), replace1_append,
      replace1_cons_ne u ':' 's' _ (Ne.symm hus), replace1_nil,
      replace1_eq_self u ':' X (fun c hc => (hX c hc).1),
      replace1_eq_self u ':' Y (fun c hc => (hY c hc).1),
      replace1_eq_self u ':' Z (fun c hc => (hZ c hc).1)]
  have s2 : replace1 'm' ':' (X ++ ':' :: (Y ++ 'm' :: (Z ++ ['s']))) =
      X ++ ':' :: (Y ++ ':' :: (Z ++ ['s'])) := by
    rw [replace1_append, replace1_cons_ne 'm' ':' ':' _ (by decide), replace1_append,
      replace1_cons_eq, replace1_append, replace1_cons_ne 'm' ':' 's' _ (by decide),
      replace1_nil, replace1_eq_self 'm' ':' X (fun c hc => (hX c hc).2.1),
      replace1_eq_self 'm' ':' Y (fun c hc => (hY c hc).2.1),
      replace1_eq_self 'm' ':' Z (fun c hc => (hZ c hc).2.1)]
  have s3 : removeS (X ++ ':' :: (Y ++ ':' :: (Z ++ ['s']))) =
      X ++ ':' :: (Y ++ ':' :: Z) := by
    rw [removeS_append, removeS_cons_ne ':' _ (by decide), removeS_append,
      removeS_cons_ne ':' _ (by decide), removeS_append, removeS_cons_s, removeS_nil,
      List.append_nil, removeS_eq_self X (fun c hc => (hX c hc).2.2.1),
      removeS_eq_self Y (fun c hc => (hY c hc).2.2.1),
      removeS_eq_self Z (fun c hc => (hZ c hc).2.2.1)]
  have s4 : splitOn ':' (X ++ ':' :: (Y ++ ':' :: Z)) = [X, Y, Z] := by
    rw [splitOn_append ':' X _ (fun c hc => (hX c hc).2.2.2),
      splitOn_append ':' Y _ (fun c hc => (hY c hc).2.2.2),
      splitOn_sepFree ':' Z (fun c hc => (hZ c hc).2.2.2)]
  rw [s1, s2, s3, s4]

/-- Digit characters satisfy all four separator disequalities for the
RA unit letter `'h'`. -/
theorem digit_field_facts_h (l : List Char) (h : ∀ c ∈ l, c.isDigit = true) :
    ∀ c ∈ l, c ≠ 'h' ∧ c ≠ 'm' ∧ c ≠ 's' ∧ c ≠ ':' := by
  intro c hc
  have hd := isDigit_ne c (h c hc)
  exact ⟨hd.2.2.2.2.1, hd.2.2.2.2.2.1, hd.2.2.2.2.2.2.1, hd.1⟩

/-- Digit characters satisfy all four separator disequalities for the
DEC unit letter `'d'`. -/
theorem digit_field_facts_d (l : List Char) (h : ∀ c ∈ l, c.isDigit = true) :
    ∀ c ∈ l, c ≠ 'd' ∧ c ≠ 'm' ∧ c ≠ 's' ∧ c ≠ ':' := by
  intro c hc
  have hd := isDigit_ne c (h c hc)
  exact ⟨hd.2.2.2.2.2.2.2, hd.2.2.2.2.2.1, hd.2.2.2.2.2.2.1, hd.1⟩

/-- Seconds fields are digits with one point; they satisfy the same
disequalities for the RA unit letter. -/
theorem frac_field_facts_h (l : List Char) (h : ∀ c ∈ l, c.isDigit = true ∨ c = '.') :
    ∀ c ∈ l, c ≠ 'h' ∧ c ≠ 'm' ∧ c ≠ 's' ∧ c ≠ ':' := by
  intro c hc
  rcases h c hc with hd | rfl
  · have hd' := isDigit_ne c hd
    exact ⟨hd'.2.2.2.2.1, hd'.2.2.2.2.2.1, hd'.2.2.2.2.2.2.1, hd'.1⟩
  · exact ⟨by decide, by decide, by decide, by decide⟩

/-- Seconds fields satisfy the same disequalities for the DEC unit
letter. -/
theorem frac_field_facts_d (l : List Char) (h : ∀ c ∈ l, c.isDigit = true ∨ c = '.') :
    ∀ c ∈ l, c ≠ 'd' ∧ c ≠ 'm' ∧ c ≠ 's' ∧ c ≠ ':' := by
  intro c hc
  rcases h c hc with hd | rfl
  · have hd' := isDigit_ne c hd
    exact ⟨hd'.2.2.2.2.2.2.2, hd'.2.2.2.2.2.1, hd'.2.2.2.2.2.2.1, hd'.1⟩
  · exact ⟨by decide, by decide, by decide, by decide⟩

/-- Field recovery for RA strings of the formatted shape. -/
theorem raParts_fields (X Y Z : List Char)
    (hX : ∀ c ∈ X, c.isDigit = true) (hY : ∀ c ∈ Y, c.isDigit = true)
    (hZ : ∀ c ∈ Z, c.isDigit = true ∨ c = '.') :
    raParts (X ++ 'h' :: (Y ++ 'm' :: (Z ++ ['s']))) = some (X, Y, Z) := by
  unfold raParts
  rw [parts_of_fields 'h' X Y Z (digit_field_facts_h X hX) (digit_field_facts_h Y hY)
    (frac_field_facts_h Z hZ) (by decide) (by decide)]

/-- Field recovery for DEC strings of the formatted shape. -/
theorem decParts_fields (X Y Z : List Char)
    (hX : ∀ c ∈ X, c.isDigit = true) (hY : ∀ c ∈ Y, c.isDigit = true)
    (hZ : ∀ c ∈ Z, c.isDigit = true ∨ c = '.') :
    decParts (X ++ 'd' :: (Y ++ 'm' :: (Z ++ ['s']))) = some (X, Y, Z) := by
  unfold decParts
  rw [parts_of_fields 'd' X Y Z (digit_field_facts_d X hX) (digit_field_facts_d Y hY)
    (frac_field_facts_d Z hZ) (by decide) (by decide)]

/-- Evaluation of the `%05.2f` formatter once the rounded value is
known as a non-negative integer number of hundredths. -/
theorem fmt052_eval (x : ℚ) (k : ℤ) (hk : rhe (100 * x) = k) (h0 : 0 ≤ k) :
    fmt052 x = pad2 (k.toNat / 100) ++ '.' :: pad2 (k.toNat % 100) := by
  unfold fmt052
  rw [hk, if_neg (not_lt.mpr h0)]

/-- Helper: value of an integer field formatted with `pad2`. -/
theorem decimalValue_pad2_int (n : ℕ) : decimalValue (false, pad2 n, []) = (n : ℚ) := by
  rw [decimalValue_int, parseNatDigits_pad2]

/-- Helper: value of a two-decimal seconds field. -/
theorem decimalValue_pad2_frac (a b : ℕ) (hb : b < 100) :
    decimalValue (false, pad2 a, pad2 b) = (a : ℚ) + (b : ℚ) / 100 := by
  rw [decimalValue_frac, parseNatDigits_pad2, parseNatDigits_pad2, pad2_length_two b hb]
  norm_num

/-- C3 (amended): for `0 <= ra_arcsec < 1296000` (below 24 RA hours) such
that the rounded seconds do not roll over to `60.00`, the round trip
`parse_ra_hms(ra_arcsec_to_hms(ra_arcsec))` succeeds and returns the
value `ra_arcsec / 54000` in decimal hours within `0.01/3600` hours. -/
theorem ra_roundtrip_amended (q : ℚ) (hq0 : 0 ≤ q) (hq1 : q < 1296000)
    (hq2 : rhe (100 * raSeconds q) < 6000) :
    ∃ s r, ra_arcsec_to_hms q = Except.ok s ∧ parse_ra_hms s = Except.ok r ∧
      |r - q / 54000| ≤ 1 / 360000 := by
  have hra : raHoursOf q = q / 54000 := by
    unfold raHoursOf RA_ARCSEC_PER_SECOND
    norm_num
  have hraNN : 0 ≤ raHoursOf q := by
    rw [hra]
    positivity
  have hH : raHoursInt q = ⌊raHoursOf q⌋ := pyInt_of_nonneg _ hraNN
  have hH0 : 0 ≤ raHoursInt q := by
    rw [hH]
    exact Int.floor_nonneg.mpr hraNN
  have hH24 : raHoursInt q < 24 := by
    rw [hH]
    apply Int.floor_lt.mpr
    rw [hra]
    push_cast
    linarith
  have hfl := Int.floor_le (raHoursOf q)
  have hfu := Int.lt_floor_add_one (raHoursOf q)
  have hremEq : raRemainder q = 60 * (raHoursOf q - (⌊raHoursOf q⌋ : ℚ)) := by
    rw [raRemainder, hH]
  have hrem0 : 0 ≤ raRemainder q := by
    rw [hremEq]
    linarith
  have hrem60 : raRemainder q < 60 := by
    rw [hremEq]
    linarith
  have hM : raMinutesInt q = ⌊raRemainder q⌋ := pyInt_of_nonneg _ hrem0
  have hM0 : 0 ≤ raMinutesInt q := by
    rw [hM]
    exact Int.floor_nonneg.mpr hrem0
  have hM60 : raMinutesInt q < 60 := by
    rw [hM]
    exact Int.floor_lt.mpr (by exact_mod_cast hrem60)
  have hfl2 := Int.floor_le (raRemainder q)
  have hfu2 := Int.lt_floor_add_one (raRemainder q)
  have hsecEq : raSeconds q = 60 * (raRemainder q - (⌊raRemainder q⌋ : ℚ)) := by
    rw [raSeconds, hM]
  have hsec0 : 0 ≤ raSeconds q := by
    rw [hsecEq]
    linarith
  have hk0 : 0 ≤ rhe (100 * raSeconds q) := rhe_nonneg _ (mul_nonneg (by norm_num) hsec0)
  have hkabs := abs_rhe_sub (100 * raSeconds q)
  have hinner : rhe (100 * round2 (raSeconds q)) = rhe (100 * raSeconds q) := by
    rw [round2, show (100 : ℚ) * ((rhe (100 * raSeconds q) : ℚ) / 100) =
      ((rhe (100 * raSeconds q) : ℤ) : ℚ) from by ring]
    exact rhe_intCast _
  have hfmt052 := fmt052_eval (round2 (raSeconds q)) (rhe (100 * raSeconds q)) hinner hk0
  have hfmtH : fmt02 (raHoursInt q) = pad2 (raHoursInt q).toNat := by
    unfold fmt02
    rw [if_neg (not_lt.mpr hH0)]
  have hfmtM : fmt02 (raMinutesInt q) = pad2 (raMinutesInt q).toNat := by
    unfold fmt02
    rw [if_neg (not_lt.mpr hM0)]
  have houtput : ra_arcsec_to_hms q = Except.ok (pad2 (raHoursInt q).toNat ++ 'h' ::
      (pad2 (raMinutesInt q).toNat ++ 'm' ::
        ((pad2 ((rhe (100 * raSeconds q)).toNat / 100) ++ '.' ::
          pad2 ((rhe (100 * raSeconds q)).toNat % 100)) ++ ['s']))) := by
    unfold ra_arcsec_to_hms
    rw [if_neg (not_lt.mpr hq0), hfmtH, hfmtM, hfmt052]
  have hZfacts : ∀ c ∈ pad2 ((rhe (100 * raSeconds q)).toNat / 100) ++ '.' ::
      pad2 ((rhe (100 * raSeconds q)).toNat % 100), c.isDigit = true ∨ c = '.' := by
    intro c hc
    rcases List.mem_append.mp hc with h | h
    · exact Or.inl (pad2_digits _ c h)
    · rcases List.mem_cons.mp h with rfl | h
      · exact Or.inr rfl
      · exact Or.inl (pad2_digits _ c h)
  have hparts := raParts_fields (pad2 (raHoursInt q).toNat) (pad2 (raMinutesInt q).toNat)
    (pad2 ((rhe (100 * raSeconds q)).toNat / 100) ++ '.' ::
      pad2 ((rhe (100 * raSeconds q)).toNat % 100))
    (pad2_digits _) (pad2_digits _) hZfacts
  have hA := parseDecimal_digits _ (pad2_ne_nil (raHoursInt q).toNat) (pad2_digits _)
  have hB := parseDecimal_digits _ (pad2_ne_nil (raMinutesInt q).toNat) (pad2_digits _)
  have hC := parseDecimal_frac (pad2 ((rhe (100 * raSeconds q)).toNat / 100))
    (pad2 ((rhe (100 * raSeconds q)).toNat % 100)) (pad2_ne_nil _) (pad2_digits _)
    (pad2_digits _)
  have hvA : decimalValue (false, pad2 (raHoursInt q).toNat, []) = ((raHoursInt q : ℤ) : ℚ) := by
    rw [decimalValue_pad2_int]
    exact_mod_cast congrArg (fun n : ℤ => (n : ℚ)) (Int.toNat_of_nonneg hH0)
  have hvB : decimalValue (false, pad2 (raMinutesInt q).toNat, []) =
      ((raMinutesInt q : ℤ) : ℚ) := by
    rw [decimalValue_pad2_int]
    exact_mod_cast congrArg (fun n : ℤ => (n : ℚ)) (Int.toNat_of_nonneg hM0)
  have hvC : decimalValue (false, pad2 ((rhe (100 * raSeconds q)).toNat / 100),
      pad2 ((rhe (100 * raSeconds q)).toNat % 100)) =
      ((rhe (100 * raSeconds q) : ℤ) : ℚ) / 100 := by
    rw [decimalValue_pad2_frac _ _ (Nat.mod_lt _ (by norm_num))]
    have hcast : (((rhe (100 * raSeconds q)).toNat : ℚ)) = ((rhe (100 * raSeconds q) : ℤ) : ℚ) := by
      exact_mod_cast congrArg (fun n : ℤ => (n : ℚ)) (Int.toNat_of_nonneg hk0)
    have hdmq : 100 * (((rhe (100 * raSeconds q)).toNat / 100 : ℕ) : ℚ) +
        (((rhe (100 * raSeconds q)).toNat % 100 : ℕ) : ℚ) =
        (((rhe (100 * raSeconds q)).toNat : ℕ) : ℚ) := by
      exact_mod_cast Nat.div_add_mod (rhe (100 * raSeconds q)).toNat 100
    rw [← hcast]
    linarith
  have hkq : ((rhe (100 * raSeconds q) : ℤ) : ℚ) < 6000 := by exact_mod_cast hq2
  have hrange : 0 ≤ decimalValue (false, pad2 (raHoursInt q).toNat, []) ∧
      decimalValue (false, pad2 (raHoursInt q).toNat, []) < 24 ∧
      0 ≤ decimalValue (false, pad2 (raMinutesInt q).toNat, []) ∧
      decimalValue (false, pad2 (raMinutesInt q).toNat, []) < 60 ∧
      0 ≤ decimalValue (false, pad2 ((rhe (100 * raSeconds q)).toNat / 100),
        pad2 ((rhe (100 * raSeconds q)).toNat % 100)) ∧
      decimalValue (false, pad2 ((rhe (100 * raSeconds q)).toNat / 100),
        pad2 ((rhe (100 * raSeconds q)).toNat % 100)) < 60 := by
    rw [hvA, hvB, hvC]
    refine ⟨by exact_mod_cast hH0, by exact_mod_cast hH24, by exact_mod_cast hM0,
      by exact_mod_cast hM60, ?_, ?_⟩
    · exact div_nonneg (by exact_mod_cast hk0) (by norm_num)
    · rw [div_lt_iff₀ (by norm_num : (0 : ℚ) < 100)]
      linarith
  refine ⟨_, ((raHoursInt q : ℤ) : ℚ) + ((raMinutesInt q : ℤ) : ℚ) / 60 +
    ((rhe (100 * raSeconds q) : ℤ) : ℚ) / 100 / 3600, houtput, ?_, ?_⟩
  · rw [parse_ra_hms_eval _ _ _ _ _ _ _ hparts hA hB hC, if_pos hrange, hvA, hvB, hvC]
  · have hid : raHoursOf q = ((raHoursInt q : ℤ) : ℚ) + ((raMinutesInt q : ℤ) : ℚ) / 60 +
        raSeconds q / 3600 := by
      rw [hH, hM, hsecEq, hremEq]
      ring
    rw [← hra, hid, show ((raHoursInt q : ℤ) : ℚ) + ((raMinutesInt q : ℤ) : ℚ) / 60 +
        ((rhe (100 * raSeconds q) : ℤ) : ℚ) / 100 / 3600 -
        (((raHoursInt q : ℤ) : ℚ) + ((raMinutesInt q : ℤ) : ℚ) / 60 + raSeconds q / 3600) =
        (((rhe (100 * raSeconds q) : ℤ) : ℚ) - 100 * raSeconds q) / 360000 from by ring,
      abs_div, abs_of_pos (by norm_num : (0 : ℚ) < 360000)]
    have hb1 : |((rhe (100 * raSeconds q) : ℤ) : ℚ) - 100 * raSeconds q| ≤ 1 :=
      le_trans hkabs (by norm_num)
    rw [div_le_div_iff₀ (by norm_num) (by norm_num)]
    linarith

/-- Witness for the amended C3 round trip at `ra_arcsec = 243900`
(the string `04h31m00.00s`). -/
theorem ra_roundtrip_amended_witness :
    0 ≤ (243900 : ℚ) ∧ (243900 : ℚ) < 1296000 ∧ rhe (100 * raSeconds 243900) < 6000 ∧
      ∃ s r, ra_arcsec_to_hms 243900 = Except.ok s ∧ parse_ra_hms s = Except.ok r ∧
        |r - 243900 / 54000| ≤ 1 / 360000 :=
  ⟨by norm_num, by norm_num,
    by norm_num [rhe, raSeconds, raMinutesInt, raRemainder, raHoursInt, raHoursOf, pyInt,
      RA_ARCSEC_PER_SECOND],
    ra_roundtrip_amended 243900 (by norm_num) (by norm_num)
      (by norm_num [rhe, raSeconds, raMinutesInt, raRemainder, raHoursInt, raHoursOf, pyInt,
        RA_ARCSEC_PER_SECOND])⟩

/-- C3 (counterexample): the round trip fails as stated, at two inputs.
At `ra_arcsec = 1296000` (24 hours) the formatter emits `24h00m00.00s`
and the parser rejects it (`hours < 24` fails); at `ra_arcsec = 899.985`
the rounded seconds roll over to `60.00` with no carry, the formatter
emits `00h00m60.00s`, and the parser rejects it (`seconds < 60` fails). -/
theorem ra_roundtrip_counterexample :
    ra_arcsec_to_hms 1296000 =
      Except.ok ['2', '4', 'h', '0', '0', 'm', '0', '0', '.', '0', '0', 's'] ∧
    parse_ra_hms ['2', '4', 'h', '0', '0', 'm', '0', '0', '.', '0', '0', 's'] =
      Except.error "RA values out of range" ∧
    ra_arcsec_to_hms (179997 / 200) =
      Except.ok ['0', '0', 'h', '0', '0', 'm', '6', '0', '.', '0', '0', 's'] ∧
    parse_ra_hms ['0', '0', 'h', '0', '0', 'm', '6', '0', '.', '0', '0', 's'] =
      Except.error "RA values out of range" := by
  refine ⟨?_, ?_, ?_, ?_⟩
  · have hH : raHoursInt 1296000 = 24 := by
      norm_num [raHoursInt, raHoursOf, pyInt, RA_ARCSEC_PER_SECOND]
    have hM : raMinutesInt 1296000 = 0 := by
      norm_num [raMinutesInt, raRemainder, raHoursInt, raHoursOf, pyInt, RA_ARCSEC_PER_SECOND]
    have hS : round2 (raSeconds 1296000) = 0 := by
      norm_num [round2, rhe, raSeconds, raMinutesInt, raRemainder, raHoursInt, raHoursOf,
        pyInt, RA_ARCSEC_PER_SECOND]
    unfold ra_arcsec_to_hms
    rw [if_neg (by norm_num), hH, hM, hS, fmt052_eval 0 0 (by norm_num [rhe]) le_rfl]
    rfl
  · have hparts : raParts ['2', '4', 'h', '0', '0', 'm', '0', '0', '.', '0', '0', 's'] =
        some (['2', '4'], ['0', '0'], ['0', '0', '.', '0', '0']) := by decide
    have hA : parseDecimal ['2', '4'] = some (false, ['2', '4'], []) := by decide
    have hB : parseDecimal ['0', '0'] = some (false, ['0', '0'], []) := by decide
    have hC : parseDecimal ['0', '0', '.', '0', '0'] =
        some (false, ['0', '0'], ['0', '0']) := by decide
    have hv : decimalValue (false, ['2', '4'], []) = 24 := by
      rw [decimalValue_int, show parseNatDigits ['2', '4'] = 24 from by decide]
      norm_num
    rw [parse_ra_hms_eval _ _ _ _ _ _ _ hparts hA hB hC, if_neg (by norm_num [hv])]
  · have hH : raHoursInt (179997 / 200) = 0 := by
      norm_num [raHoursInt, raHoursOf, pyInt, RA_ARCSEC_PER_SECOND]
    have hM : raMinutesInt (179997 / 200) = 0 := by
      norm_num [raMinutesInt, raRemainder, raHoursInt, raHoursOf, pyInt, RA_ARCSEC_PER_SECOND]
    have hS : round2 (raSeconds (179997 / 200)) = 60 := by
      norm_num [round2, rhe, raSeconds, raMinutesInt, raRemainder, raHoursInt, raHoursOf,
        pyInt, RA_ARCSEC_PER_SECOND]
    unfold ra_arcsec_to_hms
    rw [if_neg (by norm_num), hH, hM, hS,
      fmt052_eval 60 6000 (by norm_num [rhe]) (by norm_num)]
    rfl
  · have hparts : raParts ['0', '0', 'h', '0', '0', 'm', '6', '0', '.', '0', '0', 's'] =
        some (['0', '0'], ['0', '0'], ['6', '0', '.', '0', '0']) := by decide
    have hA : parseDecimal ['0', '0'] = some (false, ['0', '0'], []) := by decide
    have hC : parseDecimal ['6', '0', '.', '0', '0'] =
        some (false, ['6', '0'], ['0', '0']) := by decide
    have hv : decimalValue (false, ['6', '0'], ['0', '0']) = 60 := by
      rw [decimalValue_frac, show parseNatDigits ['6', '0'] = 60 from by decide,
        show parseNatDigits ['0', '0'] = 0 from by decide]
      norm_num
    rw [parse_ra_hms_eval _ _ _ _ _ _ _ hparts hA hA hC, if_neg (by norm_num [hv])]

/-- C5: no carry normalisation is performed after rounding.  At
`ra_arcsec = 899.985` the rounded seconds become `60.00` and the emitted
RA string carries a `60.00` seconds field (instead of `00h01m00.00s`);
at `dec_arcsec = 59.999` the emitted DEC string carries a `60.00`
seconds field (instead of `+0d1m00.00s`). -/
theorem seconds_field_rollover :
    ra_arcsec_to_hms (179997 / 200) =
      Except.ok ['0', '0', 'h', '0', '0', 'm', '6', '0', '.', '0', '0', 's'] ∧
    dec_arcsec_to_dms (59999 / 1000) =
      ['+', '0', 'd', '0', 'm', '6', '0', '.', '0', '0', 's'] := by
  constructor
  · have hH : raHoursInt (179997 / 200) = 0 := by
      norm_num [raHoursInt, raHoursOf, pyInt, RA_ARCSEC_PER_SECOND]
    have hM : raMinutesInt (179997 / 200) = 0 := by
      norm_num [raMinutesInt, raRemainder, raHoursInt, raHoursOf, pyInt, RA_ARCSEC_PER_SECOND]
    have hS : round2 (raSeconds (179997 / 200)) = 60 := by
      norm_num [round2, rhe, raSeconds, raMinutesInt, raRemainder, raHoursInt, raHoursOf,
        pyInt, RA_ARCSEC_PER_SECOND]
    unfold ra_arcsec_to_hms
    rw [if_neg (by norm_num), hH, hM, hS,
      fmt052_eval 60 6000 (by norm_num [rhe]) (by norm_num)]
    rfl
  · have hdeg : decDegPos (59999 / 1000) = 0 := by
      norm_num [decDegPos, decDegValue, pyInt]
    have hmin : decMinPos (59999 / 1000) = 0 := by
      norm_num [decMinPos, decRemPos, decDegPos, decDegValue, pyInt]
    have hsec : round2 (decSecPos (59999 / 1000)) = 60 := by
      norm_num [round2, rhe, decSecPos, decMinPos, decRemPos, decDegPos, decDegValue, pyInt]
    unfold dec_arcsec_to_dms
    rw [if_neg (by norm_num [decDegValue]), hdeg, hmin, hsec,
      fmt052_eval 60 6000 (by norm_num [rhe]) (by norm_num)]
    rfl

/-- C7 (counterexample): the docstring example input `dec_arcsec =
162000` (45 degrees) is rendered `+45d0m00.00s` — the arcminute field is
not zero-padded to two digits, so the claimed `±DDdMMmSS.SSs` encoding
(and the docstring example `+45d00m00.00s`) does not hold. -/
theorem dec_dms_padding_counterexample :
    dec_arcsec_to_dms 162000 = ['+', '4', '5', 'd', '0', 'm', '0', '0', '.', '0', '0', 's'] ∧
    dec_arcsec_to_dms 162000 ≠
      ['+', '4', '5', 'd', '0', '0', 'm', '0', '0', '.', '0', '0', 's'] := by
  have h1 : dec_arcsec_to_dms 162000 =
      ['+', '4', '5', 'd', '0', 'm', '0', '0', '.', '0', '0', 's'] := by
    have hdeg : decDegPos 162000 = 45 := by
      norm_num [decDegPos, decDegValue, pyInt]
    have hmin : decMinPos 162000 = 0 := by
      norm_num [decMinPos, decRemPos, decDegPos, decDegValue, pyInt]
    have hsec : round2 (decSecPos 162000) = 0 := by
      norm_num [round2, rhe, decSecPos, decMinPos, decRemPos, decDegPos, decDegValue, pyInt]
    unfold dec_arcsec_to_dms
    rw [if_neg (by norm_num [decDegValue]), hdeg, hmin, hsec,
      fmt052_eval 0 0 (by norm_num [rhe]) le_rfl]
    rfl
  exact ⟨h1, by rw [h1]; decide⟩

/-- C7 (amended): for every `dec_arcsec`, the output of
`dec_arcsec_to_dms` is a single leading sign character attached to the
whole string (`'-'` exactly when the input is negative, `'+'`
otherwise), followed by the degree and arcminute fields printed as
unpadded decimal numerals (the arcminute value below 60) and a seconds
field with two integer digits and two decimals (value at most 60.00
hundredths-wise); the sign never appears on an individual component. -/
theorem dec_dms_format_amended (d : ℚ) :
    ∃ (deg mi : ℤ) (k : ℕ), 0 ≤ deg ∧ 0 ≤ mi ∧ mi < 60 ∧ k ≤ 6000 ∧
      dec_arcsec_to_dms d = (if d < 0 then '-' else '+') ::
        (numeral deg.toNat ++ 'd' :: (numeral mi.toNat ++ 'm' ::
          ((pad2 (k / 100) ++ '.' :: pad2 (k % 100)) ++ ['s']))) := by
  have hdv : decDegValue d < 0 ↔ d < 0 := by
    rw [decDegValue, div_lt_iff₀ (by norm_num : (0 : ℚ) < 3600)]
    norm_num
  by_cases hv : decDegValue d < 0
  · -- negative branch
    have hnegv : 0 ≤ -decDegValue d := by linarith
    have habs : |decDegValue d| = -decDegValue d := abs_of_neg hv
    have hDeg : decDegNeg d = ⌊-decDegValue d⌋ := by
      rw [decDegNeg, pyInt_of_nonneg _ (abs_nonneg _), habs]
    have hDeg0 : 0 ≤ decDegNeg d := by
      rw [hDeg]
      exact Int.floor_nonneg.mpr hnegv
    have hfl : (⌊-decDegValue d⌋ : ℚ) ≤ -decDegValue d := Int.floor_le _
    have hfu : -decDegValue d < ⌊-decDegValue d⌋ + 1 := Int.lt_floor_add_one _
    have hRem : decRemNeg d = 60 * (decDegValue d + (⌊-decDegValue d⌋ : ℚ)) := by
      rw [decRemNeg, hDeg]
    have hrem_le : decRemNeg d ≤ 0 := by
      rw [hRem]
      linarith
    have hrem_gt : -60 < decRemNeg d := by
      rw [hRem]
      linarith
    have habs2 : |decRemNeg d| = -decRemNeg d := abs_of_nonpos hrem_le
    have hMin : decMinNeg d = ⌊-decRemNeg d⌋ := by
      rw [decMinNeg, pyInt_of_nonneg _ (abs_nonneg _), habs2]
    have hMin0 : 0 ≤ decMinNeg d := by
      rw [hMin]
      exact Int.floor_nonneg.mpr (by linarith)
    have hMin60 : decMinNeg d < 60 := by
      rw [hMin]
      apply Int.floor_lt.mpr
      push_cast
      linarith
    have hfl2 : (⌊-decRemNeg d⌋ : ℚ) ≤ -decRemNeg d := Int.floor_le _
    have hfu2 : -decRemNeg d < ⌊-decRemNeg d⌋ + 1 := Int.lt_floor_add_one _
    have hinner_le : 60 * (decRemNeg d + (decMinNeg d : ℚ)) ≤ 0 := by
      rw [hMin]
      linarith
    have hinner_gt : -60 < 60 * (decRemNeg d + (decMinNeg d : ℚ)) := by
      rw [hMin]
      linarith
    have hSec0 : 0 ≤ decSecNeg d := by
      rw [decSecNeg]
      exact abs_nonneg _
    have hSec60 : decSecNeg d < 60 := by
      rw [decSecNeg, abs_of_nonpos hinner_le]
      linarith
    have hk0 : 0 ≤ rhe (100 * decSecNeg d) := rhe_nonneg _ (mul_nonneg (by norm_num) hSec0)
    have hk6000 : rhe (100 * decSecNeg d) ≤ 6000 := by
      apply rhe_le_of_lt
      push_cast
      linarith
    have hinner52 : rhe (100 * round2 (decSecNeg d)) = rhe (100 * decSecNeg d) := by
      rw [round2, show (100 : ℚ) * ((rhe (100 * decSecNeg d) : ℚ) / 100) =
        ((rhe (100 * decSecNeg d) : ℤ) : ℚ) from by ring]
      exact rhe_intCast _
    have hfmt := fmt052_eval (round2 (decSecNeg d)) (rhe (100 * decSecNeg d)) hinner52 hk0
    have hstrDeg : strInt (decDegNeg d) = numeral (decDegNeg d).toNat := by
      rw [strInt, if_neg (not_lt.mpr hDeg0)]
    have hstrMin : strInt (decMinNeg d) = numeral (decMinNeg d).toNat := by
      rw [strInt, if_neg (not_lt.mpr hMin0)]
    refine ⟨decDegNeg d, decMinNeg d, (rhe (100 * decSecNeg d)).toNat, hDeg0, hMin0, hMin60,
      Int.toNat_le.mpr hk6000, ?_⟩
    rw [if_pos (hdv.mp hv)]
    unfold dec_arcsec_to_dms
    rw [if_pos hv, hstrDeg, hstrMin, hfmt]
  · -- positive branch
    have hv0 : 0 ≤ decDegValue d := not_lt.mp hv
    have hDeg : decDegPos d = ⌊decDegValue d⌋ := pyInt_of_nonneg _ hv0
    have hDeg0 : 0 ≤ decDegPos d := by
      rw [hDeg]
      exact Int.floor_nonneg.mpr hv0
    have hfl : (⌊decDegValue d⌋ : ℚ) ≤ decDegValue d := Int.floor_le _
    have hfu : decDegValue d < ⌊decDegValue d⌋ + 1 := Int.lt_floor_add_one _
    have hRem : decRemPos d = 60 * (decDegValue d - (⌊decDegValue d⌋ : ℚ)) := by
      rw [decRemPos, hDeg]
    have hrem0 : 0 ≤ decRemPos d := by
      rw [hRem]
      linarith
    have hrem60 : decRemPos d < 60 := by
      rw [hRem]
      linarith
    have hMin : decMinPos d = ⌊decRemPos d⌋ := pyInt_of_nonneg _ hrem0
    have hMin0 : 0 ≤ decMinPos d := by
      rw [hMin]
      exact Int.floor_nonneg.mpr hrem0
    have hMin60 : decMinPos d < 60 := by
      rw [hMin]
      exact Int.floor_lt.mpr (by exact_mod_cast hrem60)
    have hfl2 : (⌊decRemPos d⌋ : ℚ) ≤ decRemPos d := Int.floor_le _
    have hfu2 : decRemPos d < ⌊decRemPos d⌋ + 1 := Int.lt_floor_add_one _
    have hSecEq : decSecPos d = 60 * (decRemPos d - (⌊decRemPos d⌋ : ℚ)) := by
      rw [decSecPos, hMin]
    have hSec0 : 0 ≤ decSecPos d := by
      rw [hSecEq]
      linarith
    have hSec60 : decSecPos d < 60 := by
      rw [hSecEq]
      linarith
    have hk0 : 0 ≤ rhe (100 * decSecPos d) := rhe_nonneg _ (mul_nonneg (by norm_num) hSec0)
    have hk6000 : rhe (100 * decSecPos d) ≤ 6000 := by
      apply rhe_le_of_lt
      push_cast
      linarith
    have hinner52 : rhe (100 * round2 (decSecPos d)) = rhe (100 * decSecPos d) := by
      rw [round2, show (100 : ℚ) * ((rhe (100 * decSecPos d) : ℚ) / 100) =
        ((rhe (100 * decSecPos d) : ℤ) : ℚ) from by ring]
      exact rhe_intCast _
    have hfmt := fmt052_eval (round2 (decSecPos d)) (rhe (100 * decSecPos d)) hinner52 hk0
    have hstrDeg : strInt (decDegPos d) = numeral (decDegPos d).toNat := by
      rw [strInt, if_neg (not_lt.mpr hDeg0)]
    have hstrMin : strInt (decMinPos d) = numeral (decMinPos d).toNat := by
      rw [strInt, if_neg (not_lt.mpr hMin0)]
    refine ⟨decDegPos d, decMinPos d, (rhe (100 * decSecPos d)).toNat, hDeg0, hMin0, hMin60,
      Int.toNat_le.mpr hk6000, ?_⟩
    rw [if_neg (fun h => hv (hdv.mpr h))]
    unfold dec_arcsec_to_dms
    rw [if_neg hv, hstrDeg, hstrMin, hfmt]

/-- C4 (counterexample): the colon-separated strings `"4:30:15.5"` and
`"45:30:15.5"` do NOT fail: both parsers treat the unit letters as
optional (`str.replace` leaves colon strings untouched), so both calls
succeed. -/
theorem colon_parse_counterexample :
    (parse_ra_hms ['4', ':', '3', '0', ':', '1', '5', '.', '5']).isOk = true ∧
    (parse_dec_dms ['4', '5', ':', '3', '0', ':', '1', '5', '.', '5']).isOk = true := by
  constructor
  · have hparts : raParts ['4', ':', '3', '0', ':', '1', '5', '.', '5'] =
        some (['4'], ['3', '0'], ['1', '5', '.', '5']) := by decide
    have hA : parseDecimal ['4'] = some (false, ['4'], []) := by decide
    have hB : parseDecimal ['3', '0'] = some (false, ['3', '0'], []) := by decide
    have hC : parseDecimal ['1', '5', '.', '5'] = some (false, ['1', '5'], ['5']) := by decide
    have hvA : decimalValue (false, ['4'], []) = 4 := by
      rw [decimalValue_int, show parseNatDigits ['4'] = 4 from by decide]
      norm_num
    have hvB : decimalValue (false, ['3', '0'], []) = 30 := by
      rw [decimalValue_int, show parseNatDigits ['3', '0'] = 30 from by decide]
      norm_num
    have hvC : decimalValue (false, ['1', '5'], ['5']) = 31 / 2 := by
      rw [decimalValue_frac, show parseNatDigits ['1', '5'] = 15 from by decide,
        show parseNatDigits ['5'] = 5 from by decide]
      norm_num
    rw [parse_ra_hms_eval _ _ _ _ _ _ _ hparts hA hB hC,
      if_pos (by rw [hvA, hvB, hvC]; norm_num)]
    rfl
  · have hparts : decParts (decBody ['4', '5', ':', '3', '0', ':', '1', '5', '.', '5']) =
        some (['4', '5'], ['3', '0'], ['1', '5', '.', '5']) := by decide
    have hA : parseDecimal ['4', '5'] = some (false, ['4', '5'], []) := by decide
    have hB : parseDecimal ['3', '0'] = some (false, ['3', '0'], []) := by decide
    have hC : parseDecimal ['1', '5', '.', '5'] = some (false, ['1', '5'], ['5']) := by decide
    have hvA : decimalValue (false, ['4', '5'], []) = 45 := by
      rw [decimalValue_int, show parseNatDigits ['4', '5'] = 45 from by decide]
      norm_num
    have hvB : decimalValue (false, ['3', '0'], []) = 30 := by
      rw [decimalValue_int, show parseNatDigits ['3', '0'] = 30 from by decide]
      norm_num
    have hvC : decimalValue (false, ['1', '5'], ['5']) = 31 / 2 := by
      rw [decimalValue_frac, show parseNatDigits ['1', '5'] = 15 from by decide,
        show parseNatDigits ['5'] = 5 from by decide]
      norm_num
    rw [parse_dec_dms_eval _ _ _ _ _ _ _ hparts hA hB hC,
      if_pos (by rw [hvA, hvB, hvC]; norm_num)]
    rfl

/-- C4 (amended): `parse_ra_hms("4:30:15.5")` succeeds and returns
`32431/7200` decimal hours (4.50430…) and `parse_dec_dms("45:30:15.5")`
succeeds and returns `327631/7200` decimal degrees (45.50430…); the
colon-separated forms missing unit letters are accepted by the parsers
(they are rejected only by the separate `validate_coordinate_string`
regular-expression validator, which is a different function). -/
theorem colon_parse_amended :
    parse_ra_hms ['4', ':', '3', '0', ':', '1', '5', '.', '5'] = Except.ok (32431 / 7200) ∧
    parse_dec_dms ['4', '5', ':', '3', '0', ':', '1', '5', '.', '5'] =
      Except.ok (327631 / 7200) := by
  constructor
  · have hparts : raParts ['4', ':', '3', '0', ':', '1', '5', '.', '5'] =
        some (['4'], ['3', '0'], ['1', '5', '.', '5']) := by decide
    have hA : parseDecimal ['4'] = some (false, ['4'], []) := by decide
    have hB : parseDecimal ['3', '0'] = some (false, ['3', '0'], []) := by decide
    have hC : parseDecimal ['1', '5', '.', '5'] = some (false, ['1', '5'], ['5']) := by decide
    have hvA : decimalValue (false, ['4'], []) = 4 := by
      rw [decimalValue_int, show parseNatDigits ['4'] = 4 from by decide]
      norm_num
    have hvB : decimalValue (false, ['3', '0'], []) = 30 := by
      rw [decimalValue_int, show parseNatDigits ['3', '0'] = 30 from by decide]
      norm_num
    have hvC : decimalValue (false, ['1', '5'], ['5']) = 31 / 2 := by
      rw [decimalValue_frac, show parseNatDigits ['1', '5'] = 15 from by decide,
        show parseNatDigits ['5'] = 5 from by decide]
      norm_num
    rw [parse_ra_hms_eval _ _ _ _ _ _ _ hparts hA hB hC,
      if_pos (by rw [hvA, hvB, hvC]; norm_num), hvA, hvB, hvC]
    exact congrArg Except.ok (by norm_num)
  · have hparts : decParts (decBody ['4', '5', ':', '3', '0', ':', '1', '5', '.', '5']) =
        some (['4', '5'], ['3', '0'], ['1', '5', '.', '5']) := by decide
    have hA : parseDecimal ['4', '5'] = some (false, ['4', '5'], []) := by decide
    have hB : parseDecimal ['3', '0'] = some (false, ['3', '0'], []) := by decide
    have hC : parseDecimal ['1', '5', '.', '5'] = some (false, ['1', '5'], ['5']) := by decide
    have hvA : decimalValue (false, ['4', '5'], []) = 45 := by
      rw [decimalValue_int, show parseNatDigits ['4', '5'] = 45 from by decide]
      norm_num
    have hvB : decimalValue (false, ['3', '0'], []) = 30 := by
      rw [decimalValue_int, show parseNatDigits ['3', '0'] = 30 from by decide]
      norm_num
    have hvC : decimalValue (false, ['1', '5'], ['5']) = 31 / 2 := by
      rw [decimalValue_frac, show parseNatDigits ['1', '5'] = 15 from by decide,
        show parseNatDigits ['5'] = 5 from by decide]
      norm_num
    rw [parse_dec_dms_eval _ _ _ _ _ _ _ hparts hA hB hC,
      if_pos (by rw [hvA, hvB, hvC]; norm_num), hvA, hvB, hvC,
      show decSignVal ['4', '5', ':', '3', '0', ':', '1', '5', '.', '5'] = 1 from rfl]
    exact congrArg Except.ok (by norm_num)
